import Mathlib

/-
Shallow embedding of the `cew` wallet store core:
 - `store.ts` — session lifecycle (unlock / load / save), encryption envelope,
   schema migration;
 - `walletManager.ts` — wallet / account / token operations;
 - `networkManager.ts` — network operations;
 - `cli.ts` — the switch-wallet / switch-account handlers.

JavaScript objects become Lean structures; `undefined`-able fields become
`Option`; thrown errors become `Except Err` (for pure document operations) or
an `Option Err` paired with the post-state (for session operations, whose
mutations of module-level state survive a throw). JS truthiness on strings
(`!s` is true for both `undefined` and `""`) is modelled explicitly wherever
the source relies on it.

The cryptographic collaborators (node `crypto`: scrypt and AES-256-GCM) are
external libraries, out of scope of the repository; they are modelled by their
contracts: key derivation is deterministic in (password, salt) and injective
in the password, and authenticated decryption succeeds exactly when the key
matches the one that encrypted.
-/

namespace Cew

/-- Value of the `type` tag of a wallet (`'hd' | 'simple'`). -/
inductive WalletType where
  | hd
  | simple
deriving DecidableEq, Repr

/-- Account record (`store.ts` interface `Account`). -/
structure Account where
  address : String
  path : Option String := none
  privateKey : Option String := none
  name : String
deriving DecidableEq, Repr

/-- Wallet record (`store.ts` interface `Wallet`). -/
structure Wallet where
  id : String
  type : WalletType
  mnemonic : Option String := none
  accounts : List Account
  name : String
deriving DecidableEq, Repr

/-- Network record (`store.ts` interface `Network`). -/
structure Network where
  id : String
  name : String
  rpcUrl : String
  chainId : Nat
  symbol : String
  explorerUrl : Option String := none
deriving DecidableEq, Repr

/-- Token record (`store.ts` interface `Token`). -/
structure Token where
  address : String
  symbol : String
  decimals : Nat
  chainId : Nat
  name : Option String := none
deriving DecidableEq, Repr

/-- Root document (`store.ts` interface `StorageData`). The `networks` and
`tokens` fields are `Option` because on-disk documents written by older
versions of the program lack them (`undefined` at runtime); the
migration-on-unlock step populates them. -/
structure StorageData where
  activeWalletId : Option String := none
  activeAccountAddress : Option String := none
  activeNetworkId : Option String := none
  wallets : List Wallet
  networks : Option (List Network) := none
  tokens : Option (List Token) := none
deriving DecidableEq, Repr

/-- Error taxonomy: one constructor per distinct `throw new Error(...)` site
reached by the modelled operations, plus `typeErr` for the implicit JS
`TypeError` raised when a missing (`undefined`) `networks` field is accessed. -/
inductive Err where
  | storeLocked              -- 'Wallet locked. Please unlock first.'
  | cannotSaveLocked         -- 'Cannot save: Wallet locked'
  | incorrectPassword        -- 'Incorrect password'
  | corruptedFile            -- 'Corrupted wallet data file'
  | invalidMnemonic          -- 'Invalid mnemonic'
  | walletNotFound           -- 'Wallet not found'
  | cannotDerive             -- 'Cannot derive account: Wallet not found or not HD'
  | noActiveWallet           -- 'No active wallet selected' / 'No active wallet'
  | noActiveAccount          -- 'No active account selected'
  | accountNotFound          -- 'Account not found in active wallet'
  | networkNotFound          -- 'Network not found'
  | noActiveNetwork          -- 'No active network'
  | cannotDeleteDefaultNetwork -- 'Cannot delete default networks (Sepolia, Anvil)'
  | tokenAlreadyExists       -- 'Token already exists'
  | typeErr                  -- JS TypeError: property access on undefined
deriving DecidableEq, Repr

/-- Symmetric key. Modelled abstractly as the (password, salt) pair that
produced it, which realises the spec contract for scrypt (§4.2): deterministic
given identical password+salt; differing password yields a different key. -/
abbrev Key := String × String

/-- Salt, modelled as its hex string. -/
abbrev Salt := String

/-- Key derivation (`deriveKey` in `store.ts`, delegating to `crypto.scryptSync`). -/
def deriveKey (password : String) (salt : Salt) : Key := (password, salt)

/-- Parsed content of the persisted `wallets.json` file. The `envelope` case
models the AES-256-GCM output `{encrypted, salt, iv, tag, data}` by the salt,
the key that encrypted, and the plaintext document: authenticated decryption
with key `k` succeeds exactly when `k` equals the stored key. `plain` is the
legacy plaintext shape, `corrupt` an unparseable file. -/
inductive FileJson where
  | envelope (salt : Salt) (encKey : Key) (doc : StorageData)
  | plain (doc : StorageData)
  | corrupt
deriving DecidableEq, Repr

/-- Module-level mutable state of `store.ts` (`sessionKey`, `currentSalt`,
`cachedData`) together with the filesystem cell holding `wallets.json`. -/
structure SessState where
  sessionKey : Option Key := none
  currentSalt : Option Salt := none
  cachedData : Option StorageData := none
  file : Option FileJson := none
deriving DecidableEq, Repr

/-- The two built-in networks constructed by `unlockStore` for a fresh store
and by the migration step. -/
def defaultNetworks : List Network :=
  [ { id := "sepolia", name := "Sepolia",
      rpcUrl := "https://ethereum-sepolia-rpc.publicnode.com",
      chainId := 11155111, symbol := "ETH",
      explorerUrl := some "https://sepolia.etherscan.io" },
    { id := "anvil", name := "Anvil (Local)",
      rpcUrl := "http://127.0.0.1:8545",
      chainId := 31337, symbol := "ETH", explorerUrl := none } ]

/-- The default document built by `unlockStore` when no store file exists:
`{ wallets: [], networks: defaultNetworks, activeNetworkId: 'sepolia', tokens: [] }`. -/
def defaultStoreDoc : StorageData :=
  { activeWalletId := none, activeAccountAddress := none,
    activeNetworkId := some "sepolia",
    wallets := [], networks := some defaultNetworks, tokens := some [] }

/-- `saveStore(data)` from `store.ts`: updates the cache first, then throws if
no session key/salt is established, otherwise encrypts and rewrites the file. -/
def saveStore (data : StorageData) (st : SessState) : Option Err × SessState :=
  let st := { st with cachedData := some data }
  match st.sessionKey, st.currentSalt with
  | some key, some salt =>
      (none, { st with file := some (.envelope salt key data) })
  | some _, none => (some .cannotSaveLocked, st)
  | none, _ => (some .cannotSaveLocked, st)

/-- `loadStore()` from `store.ts`. -/
def loadStore (st : SessState) : Except Err StorageData :=
  match st.cachedData with
  | none => .error .storeLocked
  | some d => .ok d

/-- `unlockStore(password)` from `store.ts`. `freshSalt` stands for the output
of `crypto.randomBytes(SALT_LEN)` consumed on the paths that generate a salt.
Mutations of the module state performed before a throw (notably
`currentSalt` on the encrypted path) survive into the returned state. -/
def unlockStore (freshSalt : Salt) (password : String) (st : SessState) :
    Option Err × SessState :=
  match st.file with
  | none =>
      -- Case 1: New Store
      let salt := freshSalt
      let st := { st with currentSalt := some salt,
                          sessionKey := some (deriveKey password salt) }
      saveStore defaultStoreDoc { st with cachedData := some defaultStoreDoc }
  | some .corrupt => (some .corruptedFile, st)
  | some (.envelope salt encKey doc) =>
      -- Case 2: Encrypted Store
      let st := { st with currentSalt := some salt }
      let key := deriveKey password salt
      if key = encKey then
        let st := { st with cachedData := some doc, sessionKey := some key }
        -- Migration: Ensure networks exist
        if doc.networks.isNone then
          let doc := { doc with networks := some defaultNetworks,
                                activeNetworkId := some "sepolia" }
          let doc := if doc.tokens.isNone then { doc with tokens := some [] } else doc
          saveStore doc st
        else if doc.tokens.isNone then
          -- Separate check if networks existed but tokens did not
          saveStore { doc with tokens := some [] } st
        else
          (none, st)
      else
        (some .incorrectPassword, st)
  | some (.plain doc) =>
      -- Case 3: Legacy Plaintext Store — upgrade immediately
      let st := { st with cachedData := some doc }
      let salt := freshSalt
      let st := { st with currentSalt := some salt,
                          sessionKey := some (deriveKey password salt) }
      saveStore doc st

/-- The load-mutate-save pattern shared by every manager operation: each one
begins with `loadStore()` and, when the pure mutation succeeds, ends with
`saveStore(store)`. Document-level operations that throw do so before any
semantically observable mutation of the cached document, so a failed mutation
leaves the session state unchanged. -/
def withStore (f : StorageData → Except Err StorageData) (st : SessState) :
    Option Err × SessState :=
  match st.cachedData with
  | none => (some .storeLocked, st)
  | some d =>
      match f d with
      | .error e => (some e, st)
      | .ok d' => saveStore d' st

/-- Replace the first element satisfying `p` by its image under `f`, leaving
the rest unchanged. This is how an in-place mutation of the object returned by
`Array.prototype.find` acts on the containing list. -/
def updateFirst (p : α → Bool) (f : α → α) : List α → List α
  | [] => []
  | x :: xs => if p x then f x :: xs else x :: updateFirst p f xs

/-- JS `String.prototype.toLowerCase` on the ASCII strings the program
handles, as a structurally recursive character map (so that concrete
instances evaluate inside the kernel). -/
def toLowerStr (s : String) : String := ⟨s.data.map Char.toLower⟩

/-- JS `String.prototype.split(' ')` with a single-character separator:
splits at every space, keeping empty pieces (so `''` gives `['']` and
`'a  b'` gives `['a', '', 'b']`), by structural recursion on the characters. -/
def splitSpaceAux : List Char → List (List Char)
  | [] => [[]]
  | c :: cs =>
      let rest := splitSpaceAux cs
      if c = ' ' then [] :: rest
      else match rest with
        | [] => [[c]]
        | w :: ws => (c :: w) :: ws

/-- JS `s.split(' ')`. -/
def splitSpace (s : String) : List String := (splitSpaceAux s.data).map (fun l => ⟨l⟩)

/-- Apostrophe character, kept out of string literals. -/
def apos : String := (Char.ofNat 39).toString

/-- The derivation path template string of the wallet manager. -/
def hdPath (i : Nat) : String :=
  "m/44" ++ apos ++ "/60" ++ apos ++ "/0" ++ apos ++ "/0/" ++ toString i

/-- The display name template for derived accounts. -/
def accountName (n : Nat) : String := "Account " ++ toString n

/-! Document-level wallet-manager operations (`walletManager.ts`). Each
operation is the pure mutation between `loadStore()` and `saveStore(store)`;
`derive` stands for the external `mnemonicToAccount(m, {addressIndex: i})`
collaborator returning the account address, and `pkToAddr` for
`privateKeyToAccount(pk)`. Fresh mnemonics (from `generateMnemonic`) and
fresh ids (from `uuidv4()`) enter as explicit arguments. -/

/-- `createHDWallet(name)` with the generated mnemonic `m` and fresh id `newId`. -/
def createHDWallet (derive : String → Nat → String) (newId name m : String)
    (store : StorageData) : Except Err StorageData :=
  let account0 : Account :=
    { address := derive m 0, path := some (hdPath 0), privateKey := none,
      name := "Account 1" }
  let newWallet : Wallet :=
    { id := newId, type := .hd, mnemonic := some m,
      accounts := [account0], name := name }
  .ok { store with wallets := store.wallets ++ [newWallet],
                   activeWalletId := some newId,
                   activeAccountAddress := some account0.address }

/-- `importMnemonic(name, mnemonic)` with fresh id `newId`. The word-count
check is the source's `mnemonic.split(' ').length < 12`. -/
def importMnemonic (derive : String → Nat → String) (newId name mnemonic : String)
    (store : StorageData) : Except Err StorageData :=
  if (splitSpace mnemonic).length < 12 then .error .invalidMnemonic
  else
    let accounts := (List.range 10).map (fun i =>
      ({ address := derive mnemonic i, path := some (hdPath i),
         privateKey := none, name := accountName (i + 1) } : Account))
    let newWallet : Wallet :=
      { id := newId, type := .hd, mnemonic := some mnemonic,
        accounts := accounts, name := name }
    .ok { store with wallets := store.wallets ++ [newWallet],
                     activeWalletId := some newId,
                     activeAccountAddress := some (derive mnemonic 0) }

/-- `deriveNewAccount(walletId)`. The guard is the source's
`!wallet || wallet.type !== 'hd' || !wallet.mnemonic` (an empty-string
mnemonic is falsy). The new index is the wallet's current account count. -/
def deriveNewAccount (derive : String → Nat → String) (walletId : String)
    (store : StorageData) : Except Err StorageData :=
  match store.wallets.find? (fun w => w.id == walletId) with
  | none => .error .cannotDerive
  | some w =>
      if w.type ≠ .hd then .error .cannotDerive
      else match w.mnemonic with
      | none => .error .cannotDerive
      | some m =>
          if m = "" then .error .cannotDerive
          else
            let index := w.accounts.length
            let newAccount : Account :=
              { address := derive m index, path := some (hdPath index),
                privateKey := none, name := accountName (index + 1) }
            .ok { store with
                  wallets := updateFirst (fun w2 => w2.id == walletId)
                    (fun w2 => { w2 with accounts := w2.accounts ++ [newAccount] })
                    store.wallets,
                  activeAccountAddress := some newAccount.address }

/-- The account record `deriveNewAccount` appends for derivation index `i`:
address from the collaborator, path `m/44'/60'/0'/0/i`, display name
`Account (i+1)`. -/
def mkDerived (derive : String → Nat → String) (m : String) (i : Nat) : Account :=
  { address := derive m i, path := some (hdPath i), privateKey := none,
    name := accountName (i + 1) }

/-- `deriveNewAccount(walletId)` iterated `N` times with no other operation in
between, propagating the first error if any. -/
def deriveN (derive : String → Nat → String) (walletId : String) :
    Nat → StorageData → Except Err StorageData
  | 0, d => .ok d
  | n + 1, d =>
      match deriveNewAccount derive walletId d with
      | .error e => .error e
      | .ok d' => deriveN derive walletId n d'

/-- `importPrivateKey(name, privateKey, walletId)`. -/
def importPrivateKey (pkToAddr : String → String) (name pk walletId : String)
    (store : StorageData) : Except Err StorageData :=
  match store.wallets.find? (fun w => w.id == walletId) with
  | none => .error .walletNotFound
  | some _ =>
      let addr := pkToAddr pk
      let newAccount : Account :=
        { address := addr, path := none, privateKey := some pk, name := name }
      .ok { store with
            wallets := updateFirst (fun w2 => w2.id == walletId)
              (fun w2 => { w2 with accounts := w2.accounts ++ [newAccount] })
              store.wallets,
            activeAccountAddress := some addr }

/-- `deleteActiveAccount()`. The wallet lookup compares each id against
`store.activeWalletId` directly (strict equality, no truthiness), while the
account guard is the falsy check `!store.activeAccountAddress`. -/
def deleteActiveAccount (store : StorageData) : Except Err StorageData :=
  let found : Option Wallet := match store.activeWalletId with
    | none => none
    | some wid => store.wallets.find? (fun w => w.id == wid)
  match found with
  | none => .error .noActiveWallet
  | some w =>
      match store.activeAccountAddress with
      | none => .error .noActiveAccount
      | some addr =>
          if addr = "" then .error .noActiveAccount
          else
            let accounts' := w.accounts.filter (fun a => !(a.address == addr))
            if accounts'.length = w.accounts.length then .error .accountNotFound
            else
              .ok { store with
                    wallets := updateFirst (fun w2 => w2.id == w.id)
                      (fun w2 => { w2 with accounts := accounts' }) store.wallets,
                    activeAccountAddress := (accounts'.head?).map (·.address) }

/-- `deleteActiveWallet()`. The initial guard is the falsy check
`!store.activeWalletId`; so is the guard on the re-targeted
`store.activeWalletId` before looking up the new active wallet. -/
def deleteActiveWallet (store : StorageData) : Except Err StorageData :=
  match store.activeWalletId with
  | none => .error .noActiveWallet
  | some wid =>
      if wid = "" then .error .noActiveWallet
      else
        let wallets' := store.wallets.filter (fun w => !(w.id == wid))
        if wallets'.length = store.wallets.length then .error .walletNotFound
        else
          match wallets' with
          | [] =>
              .ok { store with
                    wallets := [],
                    activeWalletId := none,
                    activeAccountAddress := none }
          | w0 :: rest =>
              let store := { store with
                             wallets := w0 :: rest,
                             activeWalletId := some w0.id }
              if w0.id = "" then .ok { store with activeAccountAddress := none }
              else
                let newActive := store.wallets.find? (fun w => w.id == w0.id)
                .ok { store with activeAccountAddress :=
                        newActive.bind (fun w => (w.accounts.head?).map (·.address)) }

/-- `addToken(token)`. A missing `tokens` field is initialised to `[]` first;
the duplicate check lowercases both addresses. -/
def addToken (token : Token) (store : StorageData) : Except Err StorageData :=
  let ts := store.tokens.getD []
  match ts.find? (fun t =>
      toLowerStr t.address == toLowerStr token.address && t.chainId == token.chainId) with
  | some _ => .error .tokenAlreadyExists
  | none => .ok { store with tokens := some (ts ++ [token]) }

/-- `removeToken(address, chainId)`: returns without saving when `tokens` is
missing, otherwise filters out the matching tokens (case-insensitively on the
address) and saves. -/
def removeToken (address : String) (chainId : Nat) (store : StorageData) :
    Except Err StorageData :=
  match store.tokens with
  | none => .ok store
  | some ts =>
      .ok { store with tokens := some (ts.filter (fun t =>
              !(toLowerStr t.address == toLowerStr address && t.chainId == chainId))) }

/-! Document-level network operations (`networkManager.ts`). Accessing the
`networks` field when it is `undefined` raises a JS `TypeError`, modelled by
`Err.typeErr` (this never happens on migrated documents). -/

/-- `addNetwork(name, rpcUrl, chainId, symbol, explorerUrl)` with fresh id `newId`. -/
def addNetwork (newId name rpcUrl : String) (chainId : Nat) (symbol : String)
    (explorerUrl : Option String) (store : StorageData) : Except Err StorageData :=
  match store.networks with
  | none => .error .typeErr
  | some ns =>
      let newNetwork : Network :=
        { id := newId, name := name, rpcUrl := rpcUrl, chainId := chainId,
          symbol := symbol, explorerUrl := explorerUrl }
      .ok { store with networks := some (ns ++ [newNetwork]) }

/-- `switchNetwork(networkId)`. -/
def switchNetwork (networkId : String) (store : StorageData) :
    Except Err StorageData :=
  match store.networks with
  | none => .error .typeErr
  | some ns =>
      match ns.find? (fun n => n.id == networkId) with
      | none => .error .networkNotFound
      | some _ => .ok { store with activeNetworkId := some networkId }

/-- `deleteActiveNetwork()`. The guard `!networkId` is the falsy check, then
the two built-in ids are refused; otherwise the network is filtered out and
the pointer falls back to the built-in `'sepolia'`. -/
def deleteActiveNetwork (store : StorageData) : Except Err StorageData :=
  match store.activeNetworkId with
  | none => .error .noActiveNetwork
  | some nid =>
      if nid = "" then .error .noActiveNetwork
      else if nid = "sepolia" ∨ nid = "anvil" then .error .cannotDeleteDefaultNetwork
      else match store.networks with
      | none => .error .typeErr
      | some ns =>
          .ok { store with networks := some (ns.filter (fun n => !(n.id == nid))),
                           activeNetworkId := some "sepolia" }

/-! The switch handlers live in `cli.ts`; their prompts offer only entities
present in the document, so an id outside the offered list cannot be chosen —
such a choice is modelled as a no-op, as are the early-return guard paths. -/

/-- `handleSwitchWallet()` from `cli.ts` choosing wallet `id`: sets
`activeWalletId`, and re-targets `activeAccountAddress` to the chosen
wallet's first account only when that wallet has accounts (otherwise the
account pointer is left as it was). -/
def handleSwitchWallet (id : String) (store : StorageData) : StorageData :=
  match store.wallets.find? (fun w => w.id == id) with
  | none => store
  | some w =>
      match w.accounts with
      | [] => { store with activeWalletId := some id }
      | a :: _ => { store with activeWalletId := some id,
                               activeAccountAddress := some a.address }

/-- `handleSwitchAccount()` from `cli.ts` choosing address `addr` among the
active wallet's accounts (`getActiveWallet` applies the falsy check
`!store.activeWalletId`). -/
def handleSwitchAccount (addr : String) (store : StorageData) : StorageData :=
  let activeWallet : Option Wallet := match store.activeWalletId with
    | none => none
    | some wid => if wid = "" then none else store.wallets.find? (fun w => w.id == wid)
  match activeWallet with
  | none => store
  | some w =>
      if w.accounts.isEmpty then store
      else if w.accounts.any (fun a => a.address == addr) then
        { store with activeAccountAddress := some addr }
      else store

/-! Operation language for the active-pointer invariant: one constructor per
pointer-affecting operation reachable from the CLI. Nondeterministic inputs
(fresh uuids, generated mnemonics, prompt answers) are constructor arguments. -/

/-- Pointer-affecting store operations. -/
inductive Op where
  | createHDWallet (newId name m : String)
  | importMnemonic (newId name mnemonic : String)
  | deriveNewAccount (walletId : String)
  | importPrivateKey (name pk walletId : String)
  | deleteActiveAccount
  | deleteActiveWallet
  | switchWallet (id : String)
  | switchAccount (addr : String)
  | addNetwork (newId name rpcUrl : String) (chainId : Nat) (symbol : String)
      (explorerUrl : Option String)
  | switchNetwork (networkId : String)
  | deleteActiveNetwork
deriving DecidableEq, Repr

/-- Result of a fallible document operation as seen by the session: on error
the cached document is semantically unchanged (every modelled operation throws
before any observable mutation). -/
def exceptD (d : StorageData) : Except Err StorageData → StorageData
  | .ok d' => d'
  | .error _ => d

/-- Apply one operation to the in-memory document. -/
def applyOp (derive : String → Nat → String) (pkToAddr : String → String)
    (o : Op) (d : StorageData) : StorageData :=
  match o with
  | .createHDWallet newId name m => exceptD d (createHDWallet derive newId name m d)
  | .importMnemonic newId name m => exceptD d (importMnemonic derive newId name m d)
  | .deriveNewAccount walletId => exceptD d (deriveNewAccount derive walletId d)
  | .importPrivateKey name pk walletId =>
      exceptD d (importPrivateKey pkToAddr name pk walletId d)
  | .deleteActiveAccount => exceptD d (deleteActiveAccount d)
  | .deleteActiveWallet => exceptD d (deleteActiveWallet d)
  | .switchWallet id => handleSwitchWallet id d
  | .switchAccount addr => handleSwitchAccount addr d
  | .addNetwork newId name rpcUrl chainId symbol explorerUrl =>
      exceptD d (addNetwork newId name rpcUrl chainId symbol explorerUrl d)
  | .switchNetwork networkId => exceptD d (switchNetwork networkId d)
  | .deleteActiveNetwork => exceptD d (deleteActiveNetwork d)

/-- Apply a sequence of operations left to right. -/
def runOps (derive : String → Nat → String) (pkToAddr : String → String)
    (ops : List Op) (d : StorageData) : StorageData :=
  ops.foldl (fun d o => applyOp derive pkToAddr o d) d

/-- The active-pointer invariant exactly as the spec states it:
`activeWalletId`, if set, references an existing wallet;
`activeAccountAddress`, if set, references an account belonging to the wallet
identified by `activeWalletId`; `activeNetworkId`, if set, references an
existing network. -/
def pointerInv (d : StorageData) : Bool :=
  (match d.activeWalletId with
   | none => true
   | some wid => d.wallets.any (fun w => w.id == wid)) &&
  (match d.activeAccountAddress with
   | none => true
   | some addr =>
      match d.activeWalletId with
      | none => false
      | some wid =>
          match d.wallets.find? (fun w => w.id == wid) with
          | none => false
          | some w => w.accounts.any (fun a => a.address == addr)) &&
  (match d.activeNetworkId with
   | none => true
   | some nid => (d.networks.getD []).any (fun n => n.id == nid))

/-- The weakened pointer invariant that the code actually maintains: the
account pointer references an account of some existing wallet, not necessarily
of the wallet identified by `activeWalletId`. -/
def invB (d : StorageData) : Bool :=
  (match d.activeWalletId with
   | none => true
   | some wid => d.wallets.any (fun w => w.id == wid)) &&
  (match d.activeAccountAddress with
   | none => true
   | some addr =>
      d.wallets.any (fun w => w.accounts.any (fun a => a.address == addr))) &&
  (match d.activeNetworkId with
   | none => true
   | some nid => (d.networks.getD []).any (fun n => n.id == nid))

/-- The built-in `'sepolia'` network is present. Every document ever produced
by `unlockStore` has it, and no operation can remove it
(`deleteActiveNetwork` refuses to delete the built-in ids). -/
def hasSepolia (d : StorageData) : Bool :=
  (d.networks.getD []).any (fun n => n.id == "sepolia")

/-- Propositional form of `invB ∧ hasSepolia`, used to carry the weakened
pointer invariant through the preservation induction. -/
def InvP (d : StorageData) : Prop :=
  (∀ wid, d.activeWalletId = some wid → ∃ w ∈ d.wallets, w.id = wid) ∧
  (∀ addr, d.activeAccountAddress = some addr →
      ∃ w ∈ d.wallets, ∃ a ∈ w.accounts, a.address = addr) ∧
  (∀ nid, d.activeNetworkId = some nid → ∃ n ∈ d.networks.getD [], n.id = nid) ∧
  (∃ n ∈ d.networks.getD [], n.id = "sepolia")

/-! Concrete collaborator instances used by closed witness and counterexample
statements: a deterministic injective address deriver and key-to-address map. -/

/-- Example mnemonic-to-address collaborator: address of index `i` under
mnemonic `m` is `m ++ "-" ++ i`. Injective, as real derivation is. -/
def exDerive (m : String) (i : Nat) : String := m ++ "-" ++ toString i

/-- Example private-key-to-address collaborator. -/
def exPkToAddr (pk : String) : String := "addr-" ++ pk

/-! Concrete documents used by closed witness and counterexample statements. -/

/-- Example hd wallet `w1` with one derived account. -/
def exW1 : Wallet :=
  { id := "w1", type := .hd, mnemonic := some "m1",
    accounts := [{ address := exDerive "m1" 0, path := some (hdPath 0),
                   privateKey := none, name := "Account 1" }],
    name := "W1" }

/-- Example hd wallet `w2` with no accounts yet. -/
def exW2 : Wallet :=
  { id := "w2", type := .hd, mnemonic := some "m2", accounts := [], name := "W2" }

/-- Example document with two wallets, `w1` active together with its account;
it satisfies the spec's active-pointer invariant. -/
def exDoc : StorageData :=
  { activeWalletId := some "w1", activeAccountAddress := some (exDerive "m1" 0),
    activeNetworkId := some "sepolia",
    wallets := [exW1, exW2], networks := some defaultNetworks, tokens := some [] }

/-- Ten pre-derived accounts at indices 0–9, as `importMnemonic` creates them. -/
def exTenAccounts : List Account :=
  (List.range 10).map (fun i =>
    { address := exDerive "mm" i, path := some (hdPath i), privateKey := none,
      name := accountName (i + 1) })

/-- Example document holding one hd wallet with the ten pre-derived accounts,
the wallet and its first account active. -/
def exDoc10 : StorageData :=
  { activeWalletId := some "w", activeAccountAddress := some (exDerive "mm" 0),
    activeNetworkId := some "sepolia",
    wallets := [{ id := "w", type := .hd, mnemonic := some "mm",
                  accounts := exTenAccounts, name := "W" }],
    networks := some defaultNetworks, tokens := some [] }

/-- `exDoc10` after `deleteActiveAccount()` (removes the index-0 account). -/
def exDoc9 : StorageData := exceptD exDoc10 (deleteActiveAccount exDoc10)

/-- `exDoc9` after one `deriveNewAccount('w')`. -/
def exDoc9d : StorageData := exceptD exDoc9 (deriveNewAccount exDerive "w" exDoc9)

/-- Example stored token with a mixed-case address. -/
def exTokAB : Token :=
  { address := "0xAB", symbol := "T", decimals := 18, chainId := 1, name := none }

/-- Example token whose address differs from `exTokAB` only in letter case. -/
def exTokAb2 : Token :=
  { address := "0xab", symbol := "T2", decimals := 18, chainId := 1, name := none }

/-- Example token unrelated to `exTokAB`. -/
def exTokCD : Token :=
  { address := "0xCD", symbol := "U", decimals := 6, chainId := 1, name := none }

/-- `exDoc` with `exTokAB` stored. -/
def exDocTok : StorageData := { exDoc with tokens := some [exTokAB] }

/-- Example pre-migration document, as written by a program version that knew
neither networks nor tokens: both fields absent. -/
def exOldDoc : StorageData :=
  { activeWalletId := some "w1", activeAccountAddress := some (exDerive "m1" 0),
    activeNetworkId := none, wallets := [exW1], networks := none, tokens := none }

/-- `exDoc` with the built-in `anvil` network active. -/
def exDocAnvilNet : StorageData := { exDoc with activeNetworkId := some "anvil" }

/-- `exDoc` with a custom network active. -/
def exDocCustomNet : StorageData :=
  { exDoc with
    networks := some (defaultNetworks ++
      [{ id := "custom", name := "Custom", rpcUrl := "http://localhost:1", chainId := 7,
         symbol := "C", explorerUrl := none }]),
    activeNetworkId := some "custom" }

/-! ### Theorems -/

/-- C5: for every password, `unlockStore` when no store file exists constructs,
persists, and leaves in memory the default document: exactly the two built-in
networks `'sepolia'` and `'anvil'`, zero wallets, zero tokens,
`activeNetworkId = "sepolia"`, wallet and account pointers unset; the session
key is established and the document cached, i.e. the session is unlocked. -/
theorem unlockStore_fresh_store (freshSalt password : String) :
    unlockStore freshSalt password
        { sessionKey := none, currentSalt := none, cachedData := none, file := none }
      = (none,
         { sessionKey := some (deriveKey password freshSalt),
           currentSalt := some freshSalt,
           cachedData := some defaultStoreDoc,
           file := some (.envelope freshSalt (deriveKey password freshSalt)
                           defaultStoreDoc) }) ∧
    (defaultStoreDoc.networks.getD []).map (fun n => n.id) = ["sepolia", "anvil"] ∧
    defaultStoreDoc.wallets = [] ∧
    defaultStoreDoc.tokens = some [] ∧
    defaultStoreDoc.activeNetworkId = some "sepolia" ∧
    defaultStoreDoc.activeWalletId = none ∧
    defaultStoreDoc.activeAccountAddress = none := by
  exact ⟨rfl, by decide, rfl, rfl, rfl, rfl, rfl⟩

/-- C3: unlocking an encrypted store file with a password other than the one
whose derived key encrypted it fails with `IncorrectPassword`; the in-memory
document stays unset (only `currentSalt` was mutated before the failure), so
a subsequent `loadStore` fails with `StoreLocked`, and so does every mutation
(each one begins with `loadStore()`). -/
theorem unlockStore_wrong_password (freshSalt p p' salt : String) (d : StorageData)
    (h : p' ≠ p) :
    unlockStore freshSalt p'
        { sessionKey := none, currentSalt := none, cachedData := none,
          file := some (.envelope salt (deriveKey p salt) d) }
      = (some .incorrectPassword,
         { sessionKey := none, currentSalt := some salt, cachedData := none,
           file := some (.envelope salt (deriveKey p salt) d) }) ∧
    loadStore
        { sessionKey := none, currentSalt := some salt, cachedData := none,
          file := some (.envelope salt (deriveKey p salt) d) }
      = .error .storeLocked ∧
    ∀ f, withStore f
        { sessionKey := none, currentSalt := some salt, cachedData := none,
          file := some (.envelope salt (deriveKey p salt) d) }
      = (some .storeLocked,
         { sessionKey := none, currentSalt := some salt, cachedData := none,
           file := some (.envelope salt (deriveKey p salt) d) }) := by
  refine ⟨?_, rfl, fun f => rfl⟩
  simp [unlockStore, deriveKey, Prod.ext_iff, h]

/-- Witness for C3 at a concrete wrong password. -/
theorem unlockStore_wrong_password_witness :
    ("guess" : String) ≠ "correct-horse" ∧
    unlockStore "f" "guess"
        { sessionKey := none, currentSalt := none, cachedData := none,
          file := some (.envelope "s" (deriveKey "correct-horse" "s") defaultStoreDoc) }
      = (some .incorrectPassword,
         { sessionKey := none, currentSalt := some "s", cachedData := none,
           file := some (.envelope "s" (deriveKey "correct-horse" "s") defaultStoreDoc) }) ∧
    loadStore
        { sessionKey := none, currentSalt := some "s", cachedData := none,
          file := some (.envelope "s" (deriveKey "correct-horse" "s") defaultStoreDoc) }
      = .error .storeLocked :=
  ⟨by decide,
   (unlockStore_wrong_password "f" "correct-horse" "guess" "s" defaultStoreDoc
      (by decide)).1,
   (unlockStore_wrong_password "f" "correct-horse" "guess" "s" defaultStoreDoc
      (by decide)).2.1⟩

/-- C10: `saveStore(d)` with no session key replaces the cached in-memory
document with `d` before checking the key, then reports the locked-store
error; the error is therefore not atomic: a subsequent `loadStore` returns
`d` instead of failing with `StoreLocked`. -/
theorem saveStore_locked_caches_before_failing (d : StorageData) (st : SessState)
    (h : st.sessionKey = none) :
    saveStore d st = (some .cannotSaveLocked, { st with cachedData := some d }) ∧
    loadStore { st with cachedData := some d } = .ok d := by
  refine ⟨?_, rfl⟩
  simp only [saveStore, h]

/-- Witness for C10 on the pristine locked session. -/
theorem saveStore_locked_caches_before_failing_witness :
    (SessState.sessionKey
        { sessionKey := none, currentSalt := none, cachedData := none, file := none }
      = none) ∧
    saveStore defaultStoreDoc
        { sessionKey := none, currentSalt := none, cachedData := none, file := none }
      = (some .cannotSaveLocked,
         { sessionKey := none, currentSalt := none,
           cachedData := some defaultStoreDoc, file := none }) ∧
    loadStore
        { sessionKey := none, currentSalt := none,
          cachedData := some defaultStoreDoc, file := none }
      = .ok defaultStoreDoc :=
  ⟨rfl,
   (saveStore_locked_caches_before_failing defaultStoreDoc
      { sessionKey := none, currentSalt := none, cachedData := none, file := none }
      rfl).1,
   (saveStore_locked_caches_before_failing defaultStoreDoc
      { sessionKey := none, currentSalt := none, cachedData := none, file := none }
      rfl).2⟩

/-- C7: `deleteActiveWallet()` when the active wallet is the only wallet
removes it and unsets both `activeWalletId` and `activeAccountAddress`, while
`networks`, `tokens` and `activeNetworkId` are untouched. (`w.id ≠ ""`
reflects that wallet ids are uuids; an empty id would be falsy in JS.) -/
theorem deleteActiveWallet_only_wallet (store : StorageData) (w : Wallet)
    (h1 : store.wallets = [w]) (h2 : store.activeWalletId = some w.id)
    (h3 : w.id ≠ "") :
    deleteActiveWallet store =
      .ok { store with
            wallets := [],
            activeWalletId := none,
            activeAccountAddress := none } := by
  simp [deleteActiveWallet, h1, h2, h3, List.filter]

/-- Witness for C7: deleting the only wallet of `exDoc10`. -/
theorem deleteActiveWallet_only_wallet_witness :
    exDoc10.wallets =
      [{ id := "w", type := .hd, mnemonic := some "mm",
         accounts := exTenAccounts, name := "W" }] ∧
    exDoc10.activeWalletId = some "w" ∧
    deleteActiveWallet exDoc10 =
      .ok { exDoc10 with
            wallets := [],
            activeWalletId := none,
            activeAccountAddress := none } :=
  ⟨rfl, rfl,
   deleteActiveWallet_only_wallet exDoc10
     { id := "w", type := .hd, mnemonic := some "mm",
       accounts := exTenAccounts, name := "W" } rfl rfl (by decide)⟩

/-- C9: `deleteActiveNetwork` fails with `CannotDeleteDefaultNetwork` whenever
the active network id is `'sepolia'` or `'anvil'` (the document is unchanged:
the error precedes any mutation); for any other truthy active id it filters
that network out of `networks` and resets `activeNetworkId` to `'sepolia'`. -/
theorem deleteActiveNetwork_spec (store : StorageData) (nid : String)
    (ns : List Network) :
    (store.activeNetworkId = some "sepolia" ∨ store.activeNetworkId = some "anvil" →
      deleteActiveNetwork store = .error .cannotDeleteDefaultNetwork) ∧
    (store.activeNetworkId = some nid → nid ≠ "" → nid ≠ "sepolia" → nid ≠ "anvil" →
     store.networks = some ns →
      deleteActiveNetwork store =
        .ok { store with
              networks := some (ns.filter (fun n => !(n.id == nid))),
              activeNetworkId := some "sepolia" }) := by
  constructor
  · rintro (h | h) <;> simp [deleteActiveNetwork, h]
  · intro h1 h2 h3 h4 h5
    simp [deleteActiveNetwork, h1, h2, h3, h4, h5]

/-- Witness for C9: deleting a custom active network and refusing a built-in. -/
theorem deleteActiveNetwork_spec_witness :
    exDocAnvilNet.activeNetworkId = some "anvil" ∧
    deleteActiveNetwork exDocAnvilNet = .error .cannotDeleteDefaultNetwork ∧
    exDocCustomNet.activeNetworkId = some "custom" ∧
    deleteActiveNetwork exDocCustomNet
      = .ok { exDocCustomNet with
              networks := some ((exDocCustomNet.networks.getD []).filter
                (fun n => !(n.id == "custom"))),
              activeNetworkId := some "sepolia" } :=
  ⟨rfl,
   (deleteActiveNetwork_spec exDocAnvilNet "x" []).1 (Or.inr rfl),
   rfl,
   (deleteActiveNetwork_spec exDocCustomNet "custom"
      (exDocCustomNet.networks.getD [])).2 rfl (by decide) (by decide) (by decide) rfl⟩

/-- C8: `addToken` fails with `TokenAlreadyExists` exactly when a stored token
matches the new token's address up to letter case with equal `chainId` — in
particular an address differing only in case collides — and otherwise appends
the token; `removeToken` of a pair with no stored match returns the document
unchanged and raises no error. -/
theorem token_ops_spec (tok : Token) (addr : String) (cid : Nat)
    (store : StorageData) :
    ((store.tokens.getD []).any (fun t =>
        toLowerStr t.address == toLowerStr tok.address && t.chainId == tok.chainId) = true →
      addToken tok store = .error .tokenAlreadyExists) ∧
    ((store.tokens.getD []).any (fun t =>
        toLowerStr t.address == toLowerStr tok.address && t.chainId == tok.chainId) = false →
      addToken tok store =
        .ok { store with tokens := some (store.tokens.getD [] ++ [tok]) }) ∧
    ((store.tokens.getD []).all (fun t =>
        !(toLowerStr t.address == toLowerStr addr && t.chainId == cid)) = true →
      removeToken addr cid store = .ok store) := by
  refine ⟨?_, ?_, ?_⟩
  · intro h
    rw [List.any_eq_true] at h
    obtain ⟨t, ht, hp⟩ := h
    unfold addToken
    rcases hfind : (store.tokens.getD []).find? (fun t =>
        toLowerStr t.address == toLowerStr tok.address && t.chainId == tok.chainId) with _ | t'
    · exact absurd (List.find?_eq_none.mp hfind t ht) (by simp [hp])
    · simp only [hfind]
  · intro h
    unfold addToken
    rcases hfind : (store.tokens.getD []).find? (fun t =>
        toLowerStr t.address == toLowerStr tok.address && t.chainId == tok.chainId) with _ | t'
    · simp only [hfind]
    · have hmem := List.find?_some hfind
      have : (store.tokens.getD []).any (fun t =>
          toLowerStr t.address == toLowerStr tok.address && t.chainId == tok.chainId) = true :=
        List.any_eq_true.mpr ⟨t', List.mem_of_find?_eq_some hfind, hmem⟩
      rw [h] at this
      exact absurd this (by simp)
  · intro h
    obtain ⟨aw, aa, an, ws, nks, tks⟩ := store
    rcases tks with _ | ts
    · simp [removeToken]
    · simp only [Option.getD_some] at h
      simp only [removeToken, Except.ok.injEq]
      rw [StorageData.mk.injEq]
      refine ⟨rfl, rfl, rfl, rfl, rfl, ?_⟩
      rw [Option.some.injEq]
      refine List.filter_eq_self.mpr (fun t ht => ?_)
      simpa using List.all_eq_true.mp h t ht

/-- Witness for C8: a case-only address variant collides; a fresh token
appends; removing an absent pair is the identity. -/
theorem token_ops_spec_witness :
    ((exDocTok.tokens.getD []).any (fun t =>
        toLowerStr t.address == toLowerStr exTokAb2.address &&
          t.chainId == exTokAb2.chainId) = true) ∧
    addToken exTokAb2 exDocTok = .error .tokenAlreadyExists ∧
    addToken exTokCD exDoc
      = .ok { exDoc with tokens := some (exDoc.tokens.getD [] ++ [exTokCD]) } ∧
    removeToken "0xEF" 1 exDoc = .ok exDoc :=
  ⟨by decide,
   (token_ops_spec exTokAb2 "z" 0 exDocTok).1 (by decide),
   (token_ops_spec exTokCD "z" 0 exDoc).2.1 (by decide),
   (token_ops_spec exTokCD "0xEF" 1 exDoc).2.2 (by decide)⟩

/-- C6: `importMnemonic` fails with `InvalidMnemonic` for every mnemonic whose
space-split word count is below 12; for every mnemonic of at least 12 words it
appends a new hd wallet with exactly 10 accounts at derivation indices 0–9,
sets `activeWalletId` to the new wallet's id and `activeAccountAddress` to the
address of the account at index 0. -/
theorem importMnemonic_spec (derive : String → Nat → String)
    (newId name mnemonic : String) (store : StorageData) :
    ((splitSpace mnemonic).length < 12 →
      importMnemonic derive newId name mnemonic store = .error .invalidMnemonic) ∧
    (12 ≤ (splitSpace mnemonic).length →
      ∃ w : Wallet,
        importMnemonic derive newId name mnemonic store =
          .ok { store with
                wallets := store.wallets ++ [w],
                activeWalletId := some newId,
                activeAccountAddress := some (derive mnemonic 0) } ∧
        w.id = newId ∧ w.type = .hd ∧
        w.accounts.length = 10 ∧
        w.accounts.map (fun a => a.path) =
          (List.range 10).map (fun i => some (hdPath i)) ∧
        w.accounts.map (fun a => a.address) =
          (List.range 10).map (fun i => derive mnemonic i) ∧
        (w.accounts.head?).map (fun a => a.address) = some (derive mnemonic 0)) := by
  constructor
  · intro h
    simp [importMnemonic, h]
  · intro h
    refine ⟨{ id := newId, type := .hd, mnemonic := some mnemonic,
              accounts := (List.range 10).map (fun i =>
                ({ address := derive mnemonic i, path := some (hdPath i),
                   privateKey := none, name := accountName (i + 1) } : Account)),
              name := name },
            ?_, rfl, rfl, rfl, rfl, rfl, rfl⟩
    simp [importMnemonic, Nat.not_lt.mpr h]

/-- Witness for C6: an 11-word mnemonic is rejected, a 12-word one yields the
described wallet. -/
theorem importMnemonic_spec_witness :
    ((splitSpace "a b c d e f g h i j k").length < 12 ∧
      importMnemonic exDerive "nw" "W1" "a b c d e f g h i j k" defaultStoreDoc
        = .error .invalidMnemonic) ∧
    (12 ≤ (splitSpace "a b c d e f g h i j k l").length ∧
      ∃ w : Wallet,
        importMnemonic exDerive "nw" "W1" "a b c d e f g h i j k l" defaultStoreDoc =
          .ok { defaultStoreDoc with
                wallets := defaultStoreDoc.wallets ++ [w],
                activeWalletId := some "nw",
                activeAccountAddress := some (exDerive "a b c d e f g h i j k l" 0) } ∧
        w.id = "nw" ∧ w.type = .hd ∧
        w.accounts.length = 10 ∧
        w.accounts.map (fun a => a.path) =
          (List.range 10).map (fun i => some (hdPath i)) ∧
        w.accounts.map (fun a => a.address) =
          (List.range 10).map (fun i => exDerive "a b c d e f g h i j k l" i) ∧
        (w.accounts.head?).map (fun a => a.address)
          = some (exDerive "a b c d e f g h i j k l" 0)) :=
  ⟨⟨by decide,
    (importMnemonic_spec exDerive "nw" "W1" "a b c d e f g h i j k"
       defaultStoreDoc).1 (by decide)⟩,
   ⟨by decide,
    (importMnemonic_spec exDerive "nw" "W1" "a b c d e f g h i j k l"
       defaultStoreDoc).2 (by decide)⟩⟩

/-- Finding again after updating the first match yields the updated element,
provided the predicate still holds of it. -/
theorem find?_updateFirst {α : Type} {p : α → Bool} {f : α → α} {l : List α}
    {a : α} (h : l.find? p = some a) (hf : p (f a) = true) :
    (updateFirst p f l).find? p = some (f a) := by
  induction l with
  | nil => simp at h
  | cons x xs ih =>
      cases hx : p x with
      | false =>
          rw [List.find?_cons_of_neg _ (by simp [hx])] at h
          simp only [updateFirst, hx, Bool.false_eq_true, if_false]
          rw [List.find?_cons_of_neg _ (by simp [hx])]
          exact ih h
      | true =>
          rw [List.find?_cons_of_pos _ hx] at h
          injection h with h
          subst h
          simp only [updateFirst, hx, if_true]
          exact List.find?_cons_of_pos _ hf

/-- An element of the list survives `updateFirst` either unchanged or as its
image under `f`. -/
theorem mem_updateFirst_of_mem {α : Type} {p : α → Bool} {f : α → α}
    {l : List α} {a : α} (h : a ∈ l) :
    a ∈ updateFirst p f l ∨ f a ∈ updateFirst p f l := by
  induction l with
  | nil => simp at h
  | cons x xs ih =>
      rcases List.mem_cons.mp h with rfl | hmem
      · by_cases hx : p a
        · right
          simp [updateFirst, hx]
        · left
          simp [updateFirst, hx]
      · by_cases hx : p x
        · left
          simp only [updateFirst, hx, if_true]
          exact List.mem_cons_of_mem _ hmem
        · rcases ih hmem with h1 | h1
          · left
            simp only [updateFirst, hx, Bool.false_eq_true, if_false]
            exact List.mem_cons_of_mem _ h1
          · right
            simp only [updateFirst, hx, Bool.false_eq_true, if_false]
            exact List.mem_cons_of_mem _ h1

/-- Single step of `deriveNewAccount` on a found hd wallet: the appended
account is `mkDerived` at index equal to the wallet's current account count. -/
theorem deriveNewAccount_step (derive : String → Nat → String) (wid : String)
    (store : StorageData) (w : Wallet) (m : String)
    (h1 : store.wallets.find? (fun w2 => w2.id == wid) = some w)
    (h2 : w.type = .hd) (h3 : w.mnemonic = some m) (h4 : m ≠ "") :
    deriveNewAccount derive wid store = .ok
      { store with
        wallets := updateFirst (fun w2 => w2.id == wid)
          (fun w2 => { w2 with
            accounts := w2.accounts ++ [mkDerived derive m w.accounts.length] })
          store.wallets,
        activeAccountAddress := some (derive m w.accounts.length) } := by
  simp [deriveNewAccount, h1, h2, h3, h4, mkDerived]

/-- Iterating `deriveNewAccount` appends accounts at consecutive indices
starting from the wallet's current account count. -/
theorem deriveN_appends (derive : String → Nat → String) (wid : String) (N : Nat) :
    ∀ (store : StorageData) (w : Wallet) (m : String),
      store.wallets.find? (fun w2 => w2.id == wid) = some w →
      w.type = .hd → w.mnemonic = some m → m ≠ "" →
      ∃ d' w', deriveN derive wid N store = .ok d' ∧
        d'.wallets.find? (fun w2 => w2.id == wid) = some w' ∧
        w'.type = .hd ∧ w'.mnemonic = some m ∧
        w'.accounts = w.accounts ++ (List.range N).map (fun k =>
          mkDerived derive m (w.accounts.length + k)) := by
  induction N with
  | zero =>
      intro store w m h1 h2 h3 h4
      exact ⟨store, w, rfl, h1, h2, h3, by simp⟩
  | succ n ih =>
      intro store w m h1 h2 h3 h4
      have hp : (w.id == wid) = true := by simpa using List.find?_some h1
      have hstep := deriveNewAccount_step derive wid store w m h1 h2 h3 h4
      set fupd := fun w2 : Wallet => { w2 with
        accounts := w2.accounts ++ [mkDerived derive m w.accounts.length] } with hfupd
      have hfind1 : (updateFirst (fun w2 => w2.id == wid) fupd store.wallets).find?
          (fun w2 => w2.id == wid) = some (fupd w) :=
        find?_updateFirst h1 (by simpa [hfupd] using hp)
      obtain ⟨d', w', hrun, hfind, htype, hmn, hacc⟩ :=
        ih { store with
             wallets := updateFirst (fun w2 => w2.id == wid) fupd store.wallets,
             activeAccountAddress := some (derive m w.accounts.length) }
           (fupd w) m (by simpa using hfind1) h2 h3 h4
      refine ⟨d', w', ?_, hfind, htype, hmn, ?_⟩
      · simp only [deriveN, hstep]
        exact hrun
      · rw [hacc]
        simp only [hfupd, List.length_append, List.length_singleton]
        rw [List.append_assoc, List.singleton_append]
        congr 1
        rw [List.range_succ_eq_map, List.map_cons, List.map_map]
        congr 1
        refine List.map_congr_left (fun a _ => ?_)
        simp only [Function.comp_apply]
        congr 1
        omega

/-- C2 (amended): `deriveNewAccount` always derives at index equal to the
wallet's current account count, so deriving `N` accounts in sequence with no
interleaved deletion after 10 pre-derived accounts produces exactly the
accounts at indices 10..10+N-1; but the count shrinks on deletion, so an
interleaved `deleteActiveAccount` makes the next derivation reuse an index
(see the counterexample: after deleting 1 of 10, the next derivation lands on
index 9, not 10). -/
theorem deriveNewAccount_index_spec (derive : String → Nat → String)
    (wid : String) (store : StorageData) (w : Wallet) (m : String) (N : Nat)
    (h1 : store.wallets.find? (fun w2 => w2.id == wid) = some w)
    (h2 : w.type = .hd) (h3 : w.mnemonic = some m) (h4 : m ≠ "")
    (h5 : w.accounts.length = 10) :
    deriveNewAccount derive wid store = .ok
      { store with
        wallets := updateFirst (fun w2 => w2.id == wid)
          (fun w2 => { w2 with
            accounts := w2.accounts ++ [mkDerived derive m w.accounts.length] })
          store.wallets,
        activeAccountAddress := some (derive m w.accounts.length) } ∧
    ∃ d' w', deriveN derive wid N store = .ok d' ∧
      d'.wallets.find? (fun w2 => w2.id == wid) = some w' ∧
      w'.accounts = w.accounts ++ (List.range N).map (fun k =>
        mkDerived derive m (10 + k)) := by
  constructor
  · exact deriveNewAccount_step derive wid store w m h1 h2 h3 h4
  · obtain ⟨d', w', hrun, hfind, _, _, hacc⟩ :=
      deriveN_appends derive wid N store w m h1 h2 h3 h4
    rw [h5] at hacc
    exact ⟨d', w', hrun, hfind, hacc⟩

/-- Witness for C2 (amended): three derivations on the ten-account wallet of
`exDoc10` land at indices 10, 11, 12. -/
theorem deriveNewAccount_index_spec_witness :
    (exDoc10.wallets.find? (fun w2 => w2.id == "w")
      = some { id := "w", type := .hd, mnemonic := some "mm",
               accounts := exTenAccounts, name := "W" }) ∧
    ∃ d' w', deriveN exDerive "w" 3 exDoc10 = .ok d' ∧
      d'.wallets.find? (fun w2 => w2.id == "w") = some w' ∧
      w'.accounts = exTenAccounts ++ (List.range 3).map (fun k =>
        mkDerived exDerive "mm" (10 + k)) :=
  ⟨rfl,
   (deriveNewAccount_index_spec exDerive "w" exDoc10
      { id := "w", type := .hd, mnemonic := some "mm",
        accounts := exTenAccounts, name := "W" }
      "mm" 3 rfl rfl rfl (by decide) (by decide)).2⟩

/-- C2 counterexample: on an hd wallet with 10 pre-derived accounts (indices
0–9), the interleaving "delete one, then derive one" (N = 1 derivation) does
not produce the new account at index 10 as the claim states: the deletion
shrinks the count to 9, so the derivation lands at index 9 — an index freed by
the deletion — leaving the wallet with two accounts at path index 9. -/
theorem deriveNewAccount_reuses_index_after_delete :
    deleteActiveAccount exDoc10 = .ok exDoc9 ∧
    deriveNewAccount exDerive "w" exDoc9 = .ok exDoc9d ∧
    (exDoc9d.wallets.map (fun w => w.accounts.map (fun a => a.path))) =
      [((List.range 9).map (fun i => some (hdPath (i + 1)))) ++ [some (hdPath 9)]] ∧
    hdPath 9 ≠ hdPath 10 :=
  ⟨rfl, rfl, by decide, by decide⟩

/-- Bridge between the executable invariant checks and their propositional
form. -/
theorem invP_iff (d : StorageData) :
    InvP d ↔ (invB d = true ∧ hasSepolia d = true) := by
  unfold InvP invB hasSepolia
  cases hw : d.activeWalletId <;> cases ha : d.activeAccountAddress <;>
    cases hn : d.activeNetworkId <;>
      simp [List.any_eq_true, and_assoc]

/-- Updating the first match never disturbs which wallet ids are present, as
long as the update preserves the id. -/
theorem exists_id_updateFirst {p : Wallet → Bool} {f : Wallet → Wallet}
    (hid : ∀ w, (f w).id = w.id) {l : List Wallet} {s : String}
    (h : ∃ w ∈ l, w.id = s) : ∃ w ∈ updateFirst p f l, w.id = s := by
  obtain ⟨w0, hmem, hP⟩ := h
  rcases mem_updateFirst_of_mem hmem with h1 | h1
  · exact ⟨w0, h1, hP⟩
  · exact ⟨f w0, h1, by rw [hid]; exact hP⟩

/-- `createHDWallet` preserves the weakened invariant. -/
theorem invP_createHDWallet (derive : String → Nat → String)
    (newId name m : String) (d : StorageData) (h : InvP d) :
    InvP (exceptD d (createHDWallet derive newId name m d)) := by
  obtain ⟨hW, hA, hN, hS⟩ := h
  simp only [createHDWallet, exceptD]
  refine ⟨?_, ?_, hN, hS⟩
  · intro wid hwid
    injection hwid with hwid
    subst hwid
    refine ⟨{ id := newId, type := .hd, mnemonic := some m,
              accounts := [{ address := derive m 0, path := some (hdPath 0),
                             privateKey := none, name := "Account 1" }],
              name := name }, ?_, rfl⟩
    simp
  · intro addr haddr
    injection haddr with haddr
    subst haddr
    refine ⟨{ id := newId, type := .hd, mnemonic := some m,
              accounts := [{ address := derive m 0, path := some (hdPath 0),
                             privateKey := none, name := "Account 1" }],
              name := name }, ?_,
            { address := derive m 0, path := some (hdPath 0),
              privateKey := none, name := "Account 1" }, ?_, rfl⟩
    · simp
    · simp

/-- `importMnemonic` preserves the weakened invariant. -/
theorem invP_importMnemonic (derive : String → Nat → String)
    (newId name m : String) (d : StorageData) (h : InvP d) :
    InvP (exceptD d (importMnemonic derive newId name m d)) := by
  obtain ⟨hW, hA, hN, hS⟩ := h
  by_cases hlen : (splitSpace m).length < 12
  · simp only [importMnemonic, if_pos hlen, exceptD]
    exact ⟨hW, hA, hN, hS⟩
  · simp only [importMnemonic, if_neg hlen, exceptD]
    refine ⟨?_, ?_, hN, hS⟩
    · intro wid hwid
      injection hwid with hwid
      subst hwid
      refine ⟨{ id := newId, type := .hd, mnemonic := some m,
                accounts := (List.range 10).map (fun i =>
                  ({ address := derive m i, path := some (hdPath i),
                     privateKey := none, name := accountName (i + 1) } : Account)),
                name := name }, ?_, rfl⟩
      simp
    · intro addr haddr
      injection haddr with haddr
      subst haddr
      refine ⟨{ id := newId, type := .hd, mnemonic := some m,
                accounts := (List.range 10).map (fun i =>
                  ({ address := derive m i, path := some (hdPath i),
                     privateKey := none, name := accountName (i + 1) } : Account)),
                name := name }, ?_, ?_⟩
      · simp
      · exact ⟨{ address := derive m 0, path := some (hdPath 0), privateKey := none,
                 name := accountName (0 + 1) }, List.mem_map.mpr ⟨0, by simp, rfl⟩, rfl⟩

/-- `deriveNewAccount` preserves the weakened invariant (also when invoked on
a wallet other than the active one: the re-targeted account pointer lands in
an existing wallet, though not necessarily the active one). -/
theorem invP_deriveNewAccount (derive : String → Nat → String) (wid : String)
    (d : StorageData) (h : InvP d) :
    InvP (exceptD d (deriveNewAccount derive wid d)) := by
  obtain ⟨hW, hA, hN, hS⟩ := h
  rcases hfind : d.wallets.find? (fun w2 => w2.id == wid) with _ | w
  · simp only [deriveNewAccount, hfind, exceptD]
    exact ⟨hW, hA, hN, hS⟩
  · have hp : (w.id == wid) = true := by simpa using List.find?_some hfind
    by_cases htype : w.type ≠ WalletType.hd
    · simp only [deriveNewAccount, hfind, if_pos htype, exceptD]
      exact ⟨hW, hA, hN, hS⟩
    · rcases hmn : w.mnemonic with _ | m
      · simp only [deriveNewAccount, hfind, if_neg htype, hmn, exceptD]
        exact ⟨hW, hA, hN, hS⟩
      · by_cases hm : m = ""
        · simp only [deriveNewAccount, hfind, if_neg htype, hmn, if_pos hm, exceptD]
          exact ⟨hW, hA, hN, hS⟩
        · simp only [deriveNewAccount, hfind, if_neg htype, hmn, if_neg hm, exceptD]
          refine ⟨?_, ?_, hN, hS⟩
          · intro wid0 hwid0
            apply exists_id_updateFirst
            · intro w2
              rfl
            · exact hW wid0 hwid0
          · intro addr haddr
            injection haddr with haddr
            refine ⟨_, List.mem_of_find?_eq_some
              (find?_updateFirst hfind (by simpa using hp)), ?_⟩
            exact ⟨{ address := derive m w.accounts.length,
                     path := some (hdPath w.accounts.length), privateKey := none,
                     name := accountName (w.accounts.length + 1) },
                   by simp, haddr⟩

/-- `importPrivateKey` preserves the weakened invariant (again also when
targeting a non-active wallet). -/
theorem invP_importPrivateKey (pkToAddr : String → String) (name pk wid : String)
    (d : StorageData) (h : InvP d) :
    InvP (exceptD d (importPrivateKey pkToAddr name pk wid d)) := by
  obtain ⟨hW, hA, hN, hS⟩ := h
  rcases hfind : d.wallets.find? (fun w2 => w2.id == wid) with _ | w
  · simp only [importPrivateKey, hfind, exceptD]
    exact ⟨hW, hA, hN, hS⟩
  · have hp : (w.id == wid) = true := by simpa using List.find?_some hfind
    simp only [importPrivateKey, hfind, exceptD]
    refine ⟨?_, ?_, hN, hS⟩
    · intro wid0 hwid0
      apply exists_id_updateFirst
      · intro w2
        rfl
      · exact hW wid0 hwid0
    · intro addr haddr
      injection haddr with haddr
      refine ⟨_, List.mem_of_find?_eq_some
        (find?_updateFirst hfind (by simpa using hp)), ?_⟩
      exact ⟨{ address := pkToAddr pk, path := none, privateKey := some pk,
               name := name }, by simp, haddr⟩

/-- `deleteActiveAccount` preserves the weakened invariant. -/
theorem invP_deleteActiveAccount (d : StorageData) (h : InvP d) :
    InvP (exceptD d (deleteActiveAccount d)) := by
  obtain ⟨hW, hA, hN, hS⟩ := h
  rcases hw : d.activeWalletId with _ | wid
  · simp only [deleteActiveAccount, hw, exceptD]
    exact ⟨hW, hA, hN, hS⟩
  · rcases hfind : d.wallets.find? (fun w2 => w2.id == wid) with _ | w
    · simp only [deleteActiveAccount, hw, hfind, exceptD]
      exact ⟨hW, hA, hN, hS⟩
    · have hp : (w.id == wid) = true := by simpa using List.find?_some hfind
      have hpid : w.id = wid := by simpa using hp
      rcases ha : d.activeAccountAddress with _ | addr
      · simp only [deleteActiveAccount, hw, hfind, ha, exceptD]
        exact ⟨hW, hA, hN, hS⟩
      · by_cases haddr : addr = ""
        · simp only [deleteActiveAccount, hw, hfind, ha, if_pos haddr, exceptD]
          exact ⟨hW, hA, hN, hS⟩
        · by_cases hlen : (w.accounts.filter (fun a => !(a.address == addr))).length
              = w.accounts.length
          · simp only [deleteActiveAccount, hw, hfind, ha, if_neg haddr,
              if_pos hlen, exceptD]
            exact ⟨hW, hA, hN, hS⟩
          · simp only [deleteActiveAccount, hw, hfind, ha, if_neg haddr,
              if_neg hlen, exceptD]
            have hfind' : d.wallets.find? (fun w2 => w2.id == w.id) = some w := by
              rw [hpid]
              exact hfind
            refine ⟨?_, ?_, hN, hS⟩
            · intro wid0 hwid0
              injection hwid0 with hwid0
              subst hwid0
              apply exists_id_updateFirst
              · intro w2
                rfl
              · exact ⟨w, List.mem_of_find?_eq_some hfind, hpid⟩
            · intro addr0 haddr0
              rcases hhead : (w.accounts.filter
                  (fun a => !(a.address == addr))).head? with _ | a0
              · rw [hhead] at haddr0
                simp at haddr0
              · rw [hhead] at haddr0
                simp only [Option.map_some'] at haddr0
                injection haddr0 with haddr0
                refine ⟨_, List.mem_of_find?_eq_some
                  (find?_updateFirst hfind' (by simp)), ?_⟩
                exact ⟨a0, List.mem_of_mem_head? (by simp [hhead]), haddr0⟩

/-- `deleteActiveWallet` preserves the weakened invariant. -/
theorem invP_deleteActiveWallet (d : StorageData) (h : InvP d) :
    InvP (exceptD d (deleteActiveWallet d)) := by
  obtain ⟨hW, hA, hN, hS⟩ := h
  rcases hw : d.activeWalletId with _ | wid
  · simp only [deleteActiveWallet, hw, exceptD]
    exact ⟨hW, hA, hN, hS⟩
  · by_cases hwid : wid = ""
    · simp only [deleteActiveWallet, hw, if_pos hwid, exceptD]
      exact ⟨hW, hA, hN, hS⟩
    · by_cases hlen : (d.wallets.filter (fun w2 => !(w2.id == wid))).length
          = d.wallets.length
      · simp only [deleteActiveWallet, hw, if_neg hwid, if_pos hlen, exceptD]
        exact ⟨hW, hA, hN, hS⟩
      · simp only [deleteActiveWallet, hw, if_neg hwid, if_neg hlen, exceptD]
        rcases hws : d.wallets.filter (fun w2 => !(w2.id == wid)) with _ | ⟨w0, rest⟩
        · simp only [hws]
          refine ⟨?_, ?_, hN, hS⟩
          · intro wid0 hwid0
            simp at hwid0
          · intro addr0 haddr0
            simp at haddr0
        · simp only [hws]
          by_cases hid0 : w0.id = ""
          · simp only [if_pos hid0]
            refine ⟨?_, ?_, hN, hS⟩
            · intro wid0 hwid0
              injection hwid0 with hwid0
              exact ⟨w0, by simp, hwid0⟩
            · intro addr0 haddr0
              simp at haddr0
          · simp only [if_neg hid0]
            have hfind0 : (w0 :: rest).find? (fun w2 => w2.id == w0.id) = some w0 := by
              simp [List.find?_cons_of_pos]
            simp only [hfind0, Option.some_bind]
            refine ⟨?_, ?_, hN, hS⟩
            · intro wid0 hwid0
              injection hwid0 with hwid0
              exact ⟨w0, by simp, hwid0⟩
            · intro addr0 haddr0
              rcases hh : w0.accounts.head? with _ | a0
              · rw [hh] at haddr0
                simp at haddr0
              · rw [hh] at haddr0
                simp only [Option.map_some'] at haddr0
                injection haddr0 with haddr0
                exact ⟨w0, by simp, a0, List.mem_of_mem_head? (by simp [hh]), haddr0⟩

/-- `handleSwitchWallet` preserves the weakened invariant. When the chosen
wallet has no accounts the account pointer is left untouched, which keeps the
weakened clause (it still references an account of some wallet) even though
the strict belongs-to-active-wallet clause can break. -/
theorem invP_handleSwitchWallet (id : String) (d : StorageData) (h : InvP d) :
    InvP (handleSwitchWallet id d) := by
  obtain ⟨hW, hA, hN, hS⟩ := h
  rcases hfind : d.wallets.find? (fun w2 => w2.id == id) with _ | w
  · simp only [handleSwitchWallet, hfind]
    exact ⟨hW, hA, hN, hS⟩
  · have hwid : w.id = id := by simpa using List.find?_some hfind
    have hmem := List.mem_of_find?_eq_some hfind
    rcases hacc : w.accounts with _ | ⟨a, rest⟩
    · simp only [handleSwitchWallet, hfind, hacc]
      refine ⟨?_, hA, hN, hS⟩
      intro wid0 hwid0
      injection hwid0 with hwid0
      subst hwid0
      exact ⟨w, hmem, hwid⟩
    · simp only [handleSwitchWallet, hfind, hacc]
      refine ⟨?_, ?_, hN, hS⟩
      · intro wid0 hwid0
        injection hwid0 with hwid0
        subst hwid0
        exact ⟨w, hmem, hwid⟩
      · intro addr0 haddr0
        injection haddr0 with haddr0
        refine ⟨w, hmem, a, ?_, haddr0⟩
        rw [hacc]
        simp

/-- `handleSwitchAccount` preserves the weakened invariant. -/
theorem invP_handleSwitchAccount (addr : String) (d : StorageData) (h : InvP d) :
    InvP (handleSwitchAccount addr d) := by
  obtain ⟨hW, hA, hN, hS⟩ := h
  rcases hw : d.activeWalletId with _ | wid
  · simp only [handleSwitchAccount, hw]
    exact ⟨hW, hA, hN, hS⟩
  · by_cases hwid : wid = ""
    · simp only [handleSwitchAccount, hw, if_pos hwid]
      exact ⟨hW, hA, hN, hS⟩
    · rcases hfind : d.wallets.find? (fun w2 => w2.id == wid) with _ | w
      · simp only [handleSwitchAccount, hw, if_neg hwid, hfind]
        exact ⟨hW, hA, hN, hS⟩
      · by_cases hemp : w.accounts.isEmpty = true
        · simp only [handleSwitchAccount, hw, if_neg hwid, hfind, hemp, if_true]
          exact ⟨hW, hA, hN, hS⟩
        · by_cases hany : w.accounts.any (fun a => a.address == addr) = true
          · simp only [handleSwitchAccount, hw, if_neg hwid, hfind,
              hemp, Bool.false_eq_true, if_false, hany, if_true]
            refine ⟨?_, ?_, hN, hS⟩
            · intro wid0 hwid0
              injection hwid0 with hwid0
              subst hwid0
              exact ⟨w, List.mem_of_find?_eq_some hfind,
                     by simpa using List.find?_some hfind⟩
            · intro addr0 haddr0
              injection haddr0 with haddr0
              subst haddr0
              obtain ⟨a, hamem, haeq⟩ := List.any_eq_true.mp hany
              exact ⟨w, List.mem_of_find?_eq_some hfind, a, hamem, by simpa using haeq⟩
          · simp only [handleSwitchAccount, hw, if_neg hwid, hfind,
              hemp, Bool.false_eq_true, if_false, hany]
            exact ⟨hW, hA, hN, hS⟩

/-- `addNetwork` preserves the weakened invariant. -/
theorem invP_addNetwork (newId name rpcUrl : String) (chainId : Nat)
    (symbol : String) (explorerUrl : Option String) (d : StorageData)
    (h : InvP d) :
    InvP (exceptD d (addNetwork newId name rpcUrl chainId symbol explorerUrl d)) := by
  obtain ⟨hW, hA, hN, hS⟩ := h
  rcases hns : d.networks with _ | ns
  · simp only [addNetwork, hns, exceptD]
    exact ⟨hW, hA, hN, hS⟩
  · simp only [addNetwork, hns, exceptD]
    refine ⟨hW, hA, ?_, ?_⟩
    · intro nid hnid
      obtain ⟨n, hmem, hn⟩ := hN nid hnid
      rw [hns] at hmem
      simp only [Option.getD_some] at hmem ⊢
      exact ⟨n, List.mem_append_left _ hmem, hn⟩
    · obtain ⟨n, hmem, hn⟩ := hS
      rw [hns] at hmem
      simp only [Option.getD_some] at hmem ⊢
      exact ⟨n, List.mem_append_left _ hmem, hn⟩

/-- `switchNetwork` preserves the weakened invariant: the pointer is only set
after the network was found. -/
theorem invP_switchNetwork (networkId : String) (d : StorageData) (h : InvP d) :
    InvP (exceptD d (switchNetwork networkId d)) := by
  obtain ⟨hW, hA, hN, hS⟩ := h
  rcases hns : d.networks with _ | ns
  · simp only [switchNetwork, hns, exceptD]
    exact ⟨hW, hA, hN, hS⟩
  · rcases hfind : ns.find? (fun n => n.id == networkId) with _ | n
    · simp only [switchNetwork, hns, hfind, exceptD]
      exact ⟨hW, hA, hN, hS⟩
    · simp only [switchNetwork, hns, hfind, exceptD]
      rw [hns] at hS
      simp only [Option.getD_some] at hS
      refine ⟨hW, hA, ?_, ?_⟩
      · intro nid0 hnid0
        injection hnid0 with hnid0
        subst hnid0
        simp only [Option.getD_some]
        exact ⟨n, List.mem_of_find?_eq_some hfind,
               by simpa using List.find?_some hfind⟩
      · simp only [Option.getD_some]
        exact hS

/-- `deleteActiveNetwork` preserves the weakened invariant: the reset pointer
`'sepolia'` stays valid because the built-in sepolia network is present and is
never the filtered-out id. -/
theorem invP_deleteActiveNetwork (d : StorageData) (h : InvP d) :
    InvP (exceptD d (deleteActiveNetwork d)) := by
  obtain ⟨hW, hA, hN, hS⟩ := h
  rcases hn : d.activeNetworkId with _ | nid
  · simp only [deleteActiveNetwork, hn, exceptD]
    exact ⟨hW, hA, hN, hS⟩
  · by_cases h1 : nid = ""
    · simp only [deleteActiveNetwork, hn, if_pos h1, exceptD]
      exact ⟨hW, hA, hN, hS⟩
    · by_cases h2 : nid = "sepolia" ∨ nid = "anvil"
      · simp only [deleteActiveNetwork, hn, if_neg h1, if_pos h2, exceptD]
        exact ⟨hW, hA, hN, hS⟩
      · rcases hns : d.networks with _ | ns
        · simp only [deleteActiveNetwork, hn, if_neg h1, if_neg h2, hns, exceptD]
          exact ⟨hW, hA, hN, hS⟩
        · simp only [deleteActiveNetwork, hn, if_neg h1, if_neg h2, hns, exceptD]
          obtain ⟨n, hmem, hnid⟩ := hS
          rw [hns] at hmem
          simp only [Option.getD_some] at hmem
          have hkeep : n ∈ ns.filter (fun n2 => !(n2.id == nid)) := by
            refine List.mem_filter.mpr ⟨hmem, ?_⟩
            simp only [hnid, Bool.not_eq_eq_eq_not, Bool.not_true]
            simp only [beq_eq_false_iff_ne, ne_eq]
            intro hc
            exact h2 (Or.inl hc.symm)
          refine ⟨hW, hA, ?_, ?_⟩
          · intro nid0 hnid0
            injection hnid0 with hnid0
            subst hnid0
            exact ⟨n, by simpa using hkeep, hnid⟩
          · exact ⟨n, by simpa using hkeep, hnid⟩

/-- Every operation preserves the weakened invariant. -/
theorem invP_applyOp (derive : String → Nat → String) (pkToAddr : String → String)
    (o : Op) (d : StorageData) (h : InvP d) :
    InvP (applyOp derive pkToAddr o d) := by
  cases o with
  | createHDWallet newId name m => exact invP_createHDWallet derive newId name m d h
  | importMnemonic newId name m => exact invP_importMnemonic derive newId name m d h
  | deriveNewAccount wid => exact invP_deriveNewAccount derive wid d h
  | importPrivateKey name pk wid => exact invP_importPrivateKey pkToAddr name pk wid d h
  | deleteActiveAccount => exact invP_deleteActiveAccount d h
  | deleteActiveWallet => exact invP_deleteActiveWallet d h
  | switchWallet id => exact invP_handleSwitchWallet id d h
  | switchAccount addr => exact invP_handleSwitchAccount addr d h
  | addNetwork newId name rpcUrl chainId symbol explorerUrl =>
      exact invP_addNetwork newId name rpcUrl chainId symbol explorerUrl d h
  | switchNetwork networkId => exact invP_switchNetwork networkId d h
  | deleteActiveNetwork => exact invP_deleteActiveNetwork d h

/-- C1 (amended): for any sequence of wallet/account/network create, import,
switch and delete operations starting from an unlocked document that satisfies
the pointer invariants and contains the built-in `'sepolia'` network (as every
document produced by `unlockStore` does), after each operation
`activeWalletId` (if set) references an existing wallet, `activeNetworkId`
(if set) references an existing network, and `activeAccountAddress` (if set)
references an account of some existing wallet — but not necessarily of the
wallet identified by `activeWalletId`: `deriveNewAccount` and
`importPrivateKey` invoked with a non-active `walletId` re-target only the
account pointer, and switching to a wallet with no accounts leaves the account
pointer on the previous wallet (see the counterexample for the original,
stricter claim). -/
theorem runOps_preserves_pointer_invariant (derive : String → Nat → String)
    (pkToAddr : String → String) (ops : List Op) (d : StorageData)
    (h1 : invB d = true) (h2 : hasSepolia d = true) :
    invB (runOps derive pkToAddr ops d) = true ∧
    hasSepolia (runOps derive pkToAddr ops d) = true := by
  have h : InvP d := (invP_iff d).mpr ⟨h1, h2⟩
  suffices hs : InvP (runOps derive pkToAddr ops d) from (invP_iff _).mp hs
  clear h1 h2
  induction ops generalizing d with
  | nil => exact h
  | cons o rest ih =>
      have hstep := invP_applyOp derive pkToAddr o d h
      simpa [runOps] using ih (applyOp derive pkToAddr o d) hstep

/-- Witness for C1 (amended) on a concrete operation sequence that creates a
wallet, derives into a non-active wallet, deletes the active wallet and
deletes the active network. -/
theorem runOps_preserves_pointer_invariant_witness :
    invB exDoc = true ∧ hasSepolia exDoc = true ∧
    (invB (runOps exDerive exPkToAddr
        [Op.createHDWallet "w3" "W3" "m3", Op.deriveNewAccount "w2",
         Op.deleteActiveWallet, Op.switchNetwork "anvil"] exDoc) = true ∧
     hasSepolia (runOps exDerive exPkToAddr
        [Op.createHDWallet "w3" "W3" "m3", Op.deriveNewAccount "w2",
         Op.deleteActiveWallet, Op.switchNetwork "anvil"] exDoc) = true) :=
  ⟨by decide, by decide,
   runOps_preserves_pointer_invariant exDerive exPkToAddr
     [Op.createHDWallet "w3" "W3" "m3", Op.deriveNewAccount "w2",
      Op.deleteActiveWallet, Op.switchNetwork "anvil"] exDoc
     (by decide) (by decide)⟩

/-- C1 counterexample: starting from `exDoc`, which satisfies the spec's
strict active-pointer invariant, a single successful `deriveNewAccount` on the
non-active wallet `w2` leaves `activeAccountAddress` referencing the freshly
derived account of `w2` while `activeWalletId` still points at `w1`, so the
account pointer no longer references an account belonging to the active
wallet: the invariant as claimed is violated after this operation. -/
theorem pointerInv_violated_by_nonactive_derive :
    pointerInv exDoc = true ∧
    deriveNewAccount exDerive "w2" exDoc
      = .ok (applyOp exDerive exPkToAddr (Op.deriveNewAccount "w2") exDoc) ∧
    pointerInv (applyOp exDerive exPkToAddr (Op.deriveNewAccount "w2") exDoc)
      = false :=
  ⟨by decide, rfl, by decide⟩

/-- C4: unlocking (with the correct password) an encrypted document missing
the top-level `networks` and/or `tokens` fields populates them with defaults,
re-persists, and leaves session and file consistent; a second unlock of the
resulting file yields exactly the same final document and rewrites nothing —
in particular no duplicate default networks are appended. -/
theorem unlock_migration_idempotent (fresh1 fresh2 p salt : String)
    (d : StorageData) (h : d.networks = none ∨ d.tokens = none) :
    ∃ d1 : StorageData,
      unlockStore fresh1 p
          { sessionKey := none, currentSalt := none, cachedData := none,
            file := some (.envelope salt (deriveKey p salt) d) }
        = (none, { sessionKey := some (deriveKey p salt), currentSalt := some salt,
                   cachedData := some d1,
                   file := some (.envelope salt (deriveKey p salt) d1) }) ∧
      d1.networks.isSome = true ∧ d1.tokens.isSome = true ∧
      unlockStore fresh2 p
          { sessionKey := none, currentSalt := none, cachedData := none,
            file := some (.envelope salt (deriveKey p salt) d1) }
        = (none, { sessionKey := some (deriveKey p salt), currentSalt := some salt,
                   cachedData := some d1,
                   file := some (.envelope salt (deriveKey p salt) d1) }) := by
  rcases hns : d.networks with _ | ns
  · rcases hts : d.tokens with _ | ts
    · refine ⟨{ d with
                networks := some defaultNetworks,
                activeNetworkId := some "sepolia",
                tokens := some [] },
              ?_, rfl, rfl, ?_⟩
      · simp [unlockStore, saveStore, deriveKey, hns, hts]
      · simp [unlockStore, saveStore, deriveKey]
    · refine ⟨{ d with
                networks := some defaultNetworks,
                activeNetworkId := some "sepolia" },
              ?_, rfl, ?_, ?_⟩
      · simp [unlockStore, saveStore, deriveKey, hns, hts]
      · simp [hts]
      · simp [unlockStore, saveStore, deriveKey, hts]
  · rcases hts : d.tokens with _ | ts
    · refine ⟨{ d with tokens := some [] }, ?_, ?_, rfl, ?_⟩
      · simp [unlockStore, saveStore, deriveKey, hns, hts]
      · simp [hns]
      · simp [unlockStore, saveStore, deriveKey, hns]
    · rcases h with h | h
      · rw [hns] at h
        exact absurd h (by simp)
      · rw [hts] at h
        exact absurd h (by simp)

/-- Witness for C4 on a concrete pre-migration document lacking both fields. -/
theorem unlock_migration_idempotent_witness :
    (exOldDoc.networks = none ∨ exOldDoc.tokens = none) ∧
    ∃ d1 : StorageData,
      unlockStore "f1" "pw"
          { sessionKey := none, currentSalt := none, cachedData := none,
            file := some (.envelope "s" (deriveKey "pw" "s") exOldDoc) }
        = (none, { sessionKey := some (deriveKey "pw" "s"), currentSalt := some "s",
                   cachedData := some d1,
                   file := some (.envelope "s" (deriveKey "pw" "s") d1) }) ∧
      d1.networks.isSome = true ∧ d1.tokens.isSome = true ∧
      unlockStore "f2" "pw"
          { sessionKey := none, currentSalt := none, cachedData := none,
            file := some (.envelope "s" (deriveKey "pw" "s") d1) }
        = (none, { sessionKey := some (deriveKey "pw" "s"), currentSalt := some "s",
                   cachedData := some d1,
                   file := some (.envelope "s" (deriveKey "pw" "s") d1) }) :=
  ⟨Or.inl rfl,
   unlock_migration_idempotent "f1" "f2" "pw" "s" exOldDoc (Or.inl rfl)⟩

end Cew


